import Mathlib

set_option linter.unusedVariables false

/-!
Verification of the BDC backend's schema-adaptive export engine, report
templating engine and connection pool
(src/backend/app/routers/export.py, src/backend/app/routers/reports.py,
src/backend/app/routers/meta.py, src/backend/app/db.py).

Python strings are modelled as lists of characters (`Str`); the Python
string methods used by the code (`strip`, `lower`, `upper`, `endswith`,
`replace`, slicing, `re.sub` for the one fixed pattern the code uses) are
embedded as executable Lean functions restricted to the ASCII behaviour the
data exercises.  SQL result sets are supplied by a `Db` oracle structure:
every catalog or data query the Python code sends to the relational store
appears as a field of `Db`, and the embedded functions reproduce the
in-process computation the Python code performs on those results.
-/

/-- Python strings, modelled as lists of characters. -/
abbrev Str := List Char

/-- Literal helper: the character list of a Lean string literal. -/
def str (s : String) : Str := s.data

/-- Python `str.lower` on one character (ASCII letters only, which is all the
    embedded data uses). -/
def pyLowerChar (c : Char) : Char :=
  if 'A' ≤ c ∧ c ≤ 'Z' then Char.ofNat (c.toNat + 32) else c

/-- Python `str.lower` (ASCII). -/
def pyLower (s : Str) : Str := s.map pyLowerChar

/-- Python `str.upper` on one character (ASCII letters only). -/
def pyUpperChar (c : Char) : Char :=
  if 'a' ≤ c ∧ c ≤ 'z' then Char.ofNat (c.toNat - 32) else c

/-- Python `str.upper` (ASCII). -/
def pyUpper (s : Str) : Str := s.map pyUpperChar

/-- Whitespace characters stripped by Python `str.strip` (ASCII subset). -/
def isSpc (c : Char) : Bool := c = ' ' || c = '\t' || c = '\n' || c = '\r'

/-- Python `str.strip`: drop whitespace from both ends. -/
def pyStrip (s : Str) : Str :=
  ((s.dropWhile isSpc).reverse.dropWhile isSpc).reverse

/-- Lookup in a Python `dict` built by successive insertion from a pair list:
    the value of the last pair carrying the key wins (later insertions
    overwrite earlier ones). -/
def pyDictGet (pairs : List (Str × α)) (k : Str) : Option α :=
  (pairs.reverse.find? (fun p => decide (p.1 = k))).map (fun p => p.2)

/-- Iteration order of a Python `dict` built from a pair list: keys keep the
    position of their first insertion, values are the last inserted for the
    key (`dict.items()` of Python 3.7+). -/
def pyDictItems (pairs : List (Str × α)) : List (Str × α) :=
  pairs.foldl
    (fun acc p =>
      if acc.any (fun q => decide (q.1 = p.1)) then
        acc.map (fun q => if q.1 = p.1 then p else q)
      else acc ++ [p])
    []

/-- Python `dict.fromkeys`-style deduplication keeping the first occurrence,
    with an accumulator of already-seen elements. -/
def pyDedupAux [DecidableEq α] (seen : List α) : List α → List α
| [] => []
| a :: l => if a ∈ seen then pyDedupAux seen l else a :: pyDedupAux (a :: seen) l

/-- `list(dict.fromkeys(l))`: deduplicate keeping first occurrences. -/
def pyDedup [DecidableEq α] (l : List α) : List α := pyDedupAux [] l

/-- Substring test (`needle in s` for Python strings). -/
def isSubstr (needle : Str) : Str → Bool
| [] => needle.isPrefixOf ([] : Str)
| c :: cs => needle.isPrefixOf (c :: cs) || isSubstr needle cs

/-- export.py `_quote_ident` body: `ident.replace('"', '""')`. -/
def escapeQuotes : Str → Str
| [] => []
| c :: t => if c = '"' then '"' :: '"' :: escapeQuotes t else c :: escapeQuotes t

/-- export.py `_quote_ident`: wrap an identifier in double quotes, doubling
    every embedded double quote. -/
def quoteIdent (ident : Str) : Str :=
  '"' :: (escapeQuotes ident ++ ['"'])

/-- SQL quoted-identifier reader, for stating the round-trip property of
    `quoteIdent`: after the opening quote, a doubled `""` denotes a literal
    quote inside the name and a single `"` terminates the identifier.
    Returns the identifier's name and the unconsumed remainder. -/
def parseIdentBody : Str → Option (Str × Str)
| [] => none
| c :: t =>
  if c = '"' then
    match t with
    | t0 :: t2 =>
      if t0 = '"' then (parseIdentBody t2).map (fun r => ('"' :: r.1, r.2))
      else some ([], t0 :: t2)
    | [] => some ([], [])
  else (parseIdentBody t).map (fun r => (c :: r.1, r.2))

/-- Parse one double-quoted SQL identifier from the head of the input. -/
def parseQuotedIdent : Str → Option (Str × Str)
| '"' :: t => parseIdentBody t
| _ => none

/-- export.py lines 215-221: whitelist the requested attributes against the
    state table's available columns.  `allowed = {c.lower(): c for c in
    available}`, then each request `a` with `a.strip().lower()` in the dict
    contributes `allowed[key]`. -/
def exportSelected (available : List Str) (attributes : List Str) : List Str :=
  let allowed := available.map (fun c => (pyLower c, c))
  attributes.filterMap (fun a => pyDictGet allowed (pyLower (pyStrip a)))

/-- The spec's amended description of the selection: each requested
    attribute contributes the last table column whose lower-cased name
    equals the trimmed lower-cased request, unmatched requests contribute
    nothing, in request order. -/
def selectedSpec (available : List Str) (attributes : List Str) : List Str :=
  attributes.filterMap
    (fun a => (available.filter (fun t => decide (pyLower t = pyLower (pyStrip a)))).getLast?)

/-- export.py `_detect_county_column` candidate list. -/
def countyColCandidates : List Str :=
  [str "county", str "county_name", str "official_name_county",
   str "official_county_name", str "county_nm", str "cnty", str "cnty_name"]

/-- export.py `_detect_county_column`: exact candidates in priority order,
    then any column containing `county`, then columns starting with `cnty`
    or ending with `_cnty`; all matching against lower-cased names via the
    `cols_lower` dict. -/
def detectCountyColumn (available : List Str) : Option Str :=
  let colsLower := available.map (fun c => (pyLower c, c))
  match countyColCandidates.findSome? (fun c => pyDictGet colsLower c) with
  | some col => some col
  | none =>
    match (pyDictItems colsLower).findSome?
        (fun p => if isSubstr (str "county") p.1 then some p.2 else none) with
    | some col => some col
    | none =>
      (pyDictItems colsLower).findSome?
        (fun p =>
          if (str "cnty").isPrefixOf p.1 || (str "_cnty").isSuffixOf p.1 then some p.2
          else none)

/-- export.py `_detect_block_geoid_column`: exact candidates in order. -/
def detectBlockGeoidColumn (available : List Str) : Option Str :=
  let colsLower := available.map (fun c => (pyLower c, c))
  [str "block_geoid", str "geoid_block", str "geoid"].findSome?
    (fun c => pyDictGet colsLower c)

/-- Descriptor of a county lookup table (export.py dict result of
    `_find_county_lookup_source`). -/
structure LookupSource where
  table : Str
  nameCol : Str
  fipsCol : Str
  stateCol : Option Str
deriving DecidableEq

/-- export.py name-column candidates for the county lookup table. -/
def lookupNameCandidates : List Str :=
  [str "county", str "county_name", str "official_county_name"]

/-- export.py FIPS/GEOID-column candidates for the county lookup table. -/
def lookupFipsCandidates : List Str :=
  [str "geo_id", str "geoid", str "county_geo_id", str "county_fips",
   str "county_fips_code", str "countyfp", str "fips"]

/-- export.py state-column candidates for the county lookup table. -/
def lookupStateCandidates : List Str :=
  [str "state_usps", str "state", str "official_name_state",
   str "state_abbr", str "state_name"]

/-- The database as seen by the backend: one field per SQL query the code
    sends to the relational store, holding that query's result set. -/
structure Db where
  /-- `SELECT LOWER(state_name), LOWER(state_abbr) FROM dim_states_detail`
      is computed from these raw rows by applying `pyLower`. -/
  stateRows : List (Str × Str)
  /-- `information_schema.columns` for a table of the fixed schema, in
      ordinal position order; `[]` when the table is absent. -/
  columnsOf : Str → List Str
  /-- `information_schema.tables` membership test. -/
  tableExists : Str → Bool
  /-- Result of the broad catalog scan: distinct tables having a column
      whose name matches `%county%` (ILIKE), in catalog order. -/
  tablesWithCountyCols : List Str
  /-- reports.py: `COALESCE(NULLIF(call_statements_rishab,''), call_statements)`
      for a script name; `none` models both a missing row and a NULL result. -/
  callSqlFor : Str → Option Str
  /-- Result metadata and rows of executing an assembled report statement. -/
  runQuery : Str → (List Str × List (List Str))
  /-- meta.py `/states`: distinct non-null state names, sorted. -/
  distinctStateNames : List Str
  /-- meta.py `/counties`: distinct county values for a state. -/
  countiesFor : Str → List Str

/-- Python `a or b` on two optional strings: an empty string is falsy. -/
def pyTruthyOr (a b : Option Str) : Option Str :=
  match a with
  | some v => if v = [] then b else some v
  | none => b

/-- export.py `_get_state_abbr`: build `name→abbr` and `abbr→abbr` maps from
    the lower-cased dimension rows and look up the trimmed lower-cased
    input, name map first; `none` models the `Unknown state` failure
    (including the empty-abbreviation falsy case). -/
def resolveStateStrict (rows : List (Str × Str)) (state : Str) : Option Str :=
  let rowsL := rows.map (fun r => (pyLower r.1, pyLower r.2))
  let nameToAbbr := rowsL.map (fun r => (r.1, r.2))
  let abbrToAbbr := rowsL.map (fun r => (r.2, r.2))
  let key := pyLower (pyStrip state)
  match pyTruthyOr (pyDictGet nameToAbbr key) (pyDictGet abbrToAbbr key) with
  | none => none
  | some v => if v = [] then none else some v

/-- reports.py lines 44-45: `abbr_map = {name: abbr}` then
    `abbr_map.update({abbr: abbr})` — modelled as one insertion sequence,
    abbreviation pairs inserted after (hence overriding) name pairs. -/
def lenientAbbrMap (rows : List (Str × Str)) : List (Str × Str) :=
  let rowsL := rows.map (fun r => (pyLower r.1, pyLower r.2))
  rowsL.map (fun r => (r.1, r.2)) ++ rowsL.map (fun r => (r.2, r.2))

/-- reports.py line 46: lenient state resolution —
    `abbr_map.get(state.strip().lower(), state.strip().upper())`. -/
def resolveStateLenient (rows : List (Str × Str)) (state : Str) : Str :=
  match pyDictGet (lenientAbbrMap rows) (pyLower (pyStrip state)) with
  | some v => v
  | none => pyUpper (pyStrip state)

/-- export.py `_find_county_lookup_source`: try `dim_county_details` then
    `dim_county`; for each existing table detect name/FIPS/state columns by
    candidate lists and return the first table with both a name and a FIPS
    column. -/
def findCountyLookupSource (db : Db) : Option LookupSource :=
  [str "dim_county_details", str "dim_county"].findSome?
    (fun table =>
      if db.tableExists table then
        let colsLower := (db.columnsOf table).map (fun c => (pyLower c, c))
        let nameCol := lookupNameCandidates.findSome? (fun c => pyDictGet colsLower c)
        let fipsCol := lookupFipsCandidates.findSome? (fun c => pyDictGet colsLower c)
        let stateCol := lookupStateCandidates.findSome? (fun c => pyDictGet colsLower c)
        match nameCol, fipsCol with
        | some n, some f => some ⟨table, n, f, stateCol⟩
        | _, _ => none
      else none)

/-- export.py `_find_county_lookup_source_broad`: scan every table having a
    county-like column, take the first dict item whose key contains
    `county` as the name column, candidates for the FIPS/state columns. -/
def findCountyLookupSourceBroad (db : Db) : Option LookupSource :=
  db.tablesWithCountyCols.findSome?
    (fun table =>
      let colsLower := (db.columnsOf table).map (fun c => (pyLower c, c))
      let nameCol := (pyDictItems colsLower).findSome?
        (fun p => if isSubstr (str "county") p.1 then some p.2 else none)
      let fipsCol := lookupFipsCandidates.findSome? (fun c => pyDictGet colsLower c)
      let stateCol := lookupStateCandidates.findSome? (fun c => pyDictGet colsLower c)
      match nameCol, fipsCol with
      | some n, some f => some ⟨table, n, f, stateCol⟩
      | _, _ => none)

/-- The literal suffix `" county"` used by the normalization. -/
def countySuffix : Str := str " county"

/-- export.py lines 237-244 loop body: the two variants generated for one
    requested county string — the trimmed lower-cased form, plus either the
    suffix-stripped form (when it ends with `" county"`) or the
    `" county"`-suffixed form. -/
def countyVariants (c : Str) : List Str :=
  let v := pyLower (pyStrip c)
  if countySuffix.isSuffixOf v then [v, pyStrip (v.take (v.length - 7))]
  else [v, v ++ countySuffix]

/-- export.py lines 237-245: the deduplicated normalized county name list. -/
def countyNormList (counties : List Str) : List Str :=
  pyDedup (counties.flatMap countyVariants)

/-- Client-facing errors of the export router (HTTPException details). -/
inductive ExportError
| emptyAttributeList
| unknownState
| noSuchTable
| noValidAttributes
| noCountyFilterSupport
deriving DecidableEq

/-- HTTP status code attached to each export error in the source. -/
def exportStatusCode : ExportError → Nat
| .emptyAttributeList => 400
| .unknownState => 400
| .noSuchTable => 404
| .noValidAttributes => 400
| .noCountyFilterSupport => 400

/-- The WHERE/JOIN shape of the generated export statement: unfiltered,
    filtered on a detected county column with the normalized names as bound
    parameters, or joined through a lookup source on the leftmost five
    characters of the geo-id column. -/
inductive CountyFilter
| noFilter
| direct (countyCol : Str) (normalized : List Str)
| joined (blockGeoidCol : Str) (source : LookupSource) (normalized : List Str)
deriving DecidableEq

/-- Outcome of a successful export: the selected columns (the CSV header
    row and SELECT list), the county filter applied, and the suggested
    filename.  Row serialization itself carries no claim-relevant logic and
    is not replayed here. -/
structure ExportOk where
  header : List Str
  filter : CountyFilter
  filename : Str
deriving DecidableEq

/-- Python truthiness of an optional list (`if counties:`):
    true exactly for a present, non-empty list. -/
def pyTruthyList : Option (List Str) → Bool
| some (_ :: _) => true
| _ => false

/-- export.py `export_csv` body (`_run`): resolve the state, list the
    per-state table's columns, whitelist attributes, then — when counties
    were requested — filter directly on a detected county column, or join
    through a county lookup source when only a geo-id column exists, or,
    when neither column is detected, fall through and run the query with no
    county filter (the `if county_col: / elif block_geoid_col:` chain has no
    `else`). -/
def export_run (db : Db) (state : Str) (counties : Option (List Str))
    (attributes : List Str) : Except ExportError ExportOk :=
  match resolveStateStrict db.stateRows state with
  | none => .error .unknownState
  | some abbr =>
    let table := str "bdc_" ++ abbr
    let available := db.columnsOf table
    if available = [] then .error .noSuchTable
    else
      let selected := exportSelected available attributes
      if selected = [] then .error .noValidAttributes
      else
        let countyCol := detectCountyColumn available
        let geoidCol := detectBlockGeoidColumn available
        let filename := str "export_" ++ abbr ++ str ".csv"
        if pyTruthyList counties then
          let cs := counties.getD []
          match countyCol with
          | some cc => .ok ⟨selected, .direct cc (countyNormList cs), filename⟩
          | none =>
            match geoidCol with
            | some g =>
              match (findCountyLookupSource db).orElse (fun _ => findCountyLookupSourceBroad db) with
              | none => .error .noCountyFilterSupport
              | some src => .ok ⟨selected, .joined g src (countyNormList cs), filename⟩
            | none => .ok ⟨selected, .noFilter, filename⟩
        else .ok ⟨selected, .noFilter, filename⟩

/-- reports.py `fetch_call_sql_sync` in-process part: `None`/empty result is
    falsy; otherwise split the stored value on `|`, strip the segments, and
    take the first non-empty one. -/
def fetch_call_sql (db : Db) (scriptName : Str) : Option Str :=
  match db.callSqlFor scriptName with
  | none => none
  | some sqlv =>
    if sqlv = [] then none
    else (((sqlv.splitOn '|').map pyStrip).filter (fun p => p ≠ [])).head?

/-- A word character of the regex class `\w` (ASCII: letters, digits,
    underscore — the data the templates hold is ASCII). -/
def isWordChar (c : Char) : Bool := c.isAlphanum || c = '_'

/-- A lowercase ASCII letter (`[a-z]`). -/
def isLowerAZ (c : Char) : Bool := 'a' ≤ c && c ≤ 'z'

/-- One of the two quote characters of the group `(['\"])`. -/
def isQuoteChar (c : Char) : Bool := c = '\'' || c = '"'

/-- Shape required of the word-character run between the quotes for the
    pattern quote, `\w+`, `_`, `[a-z]{2}`, matching quote to match: the
    last two characters are lowercase letters, the one before them is an
    underscore, and a non-empty run comes before that.  (Because the
    closing quote is not a word character, the matched content is always
    the full maximal word run after the opening quote, so the split point
    of `\w+_[a-z]{2}` is forced and greediness plays no further role.) -/
def tokenShape (w : Str) : Bool :=
  match w.reverse with
  | b :: a :: u :: p => (u == '_') && isLowerAZ a && isLowerAZ b && !p.isEmpty
  | _ => false

/-- reports.py line 51:
    `re.sub(r"(['\"])\w+_[a-z]{2}\1", lambda m: quote + abbr + quote, sql)`.
    Scans left to right; at a quote character whose following maximal word
    run has the token shape and is closed by the same quote, the whole
    match is replaced by the quote-wrapped abbreviation and scanning
    resumes after the closing quote; otherwise the scan advances one
    character. -/
def reSubStateToken (abbr : Str) : Str → Str
| [] => []
| c :: rest =>
  let w := rest.takeWhile isWordChar
  let r2 := rest.dropWhile isWordChar
  if isQuoteChar c ∧ tokenShape w ∧ r2.head? = some c then
    c :: (abbr ++ (c :: reSubStateToken abbr r2.tail))
  else
    c :: reSubStateToken abbr rest
termination_by l => l.length
decreasing_by
  · have h2 : ∀ (l : List Char), ((l.dropWhile isWordChar).tail).length ≤ l.length := by
      intro l
      have hd : (l.dropWhile isWordChar).length ≤ l.length := by
        induction l with
        | nil => simp [List.dropWhile]
        | cons x xs ih =>
          by_cases hx : isWordChar x
          · simpa [List.dropWhile, hx] using Nat.le_succ_of_le ih
          · simp [List.dropWhile, hx]
      have ht : ((l.dropWhile isWordChar).tail).length ≤ (l.dropWhile isWordChar).length := by
        cases l.dropWhile isWordChar <;> simp
      exact le_trans ht hd
    simp only [List.length_cons]
    exact Nat.lt_succ_of_le (h2 _)
  · simp

/-- The literal token `null` replaced by the county substitution. -/
def nullTok : Str := str "null"

/-- Python `s.replace("null", repl)`: replace every (non-overlapping,
    leftmost-first) occurrence of the substring `null`; the replacement
    text is not rescanned. -/
def pyReplaceNull (repl : Str) : Str → Str
| 'n' :: 'u' :: 'l' :: 'l' :: rest => repl ++ pyReplaceNull repl rest
| c :: rest => c :: pyReplaceNull repl rest
| [] => []

/-- reports.py line 54: `"'" + ",".join(counties) + "'"`. -/
def joinedCounties (counties : List Str) : Str :=
  '\'' :: (List.intercalate [','] counties ++ ['\''])

/-- reports.py lines 53-55: `if counties and counties != ["All"]:` replace
    `null` in the prepared statement by the quoted joined county list. -/
def applyCountySubst (counties : Option (List Str)) (t : Str) : Str :=
  match counties with
  | none => t
  | some cs =>
    if cs ≠ [] ∧ cs ≠ [str "All"] then pyReplaceNull (joinedCounties cs) t else t

/-- Client-facing error of the report router. -/
inductive ReportError
| noTemplateFound
deriving DecidableEq

/-- Columns and rows returned by a report run. -/
structure ReportOk where
  columns : List Str
  rows : List (List Str)
deriving DecidableEq

/-- reports.py `run_report` body (`_run`): fetch the stored template,
    resolve the state leniently, substitute the state token and the county
    list, execute the assembled statement. -/
def run_report_run (db : Db) (script : Str) (state : Str)
    (counties : Option (List Str)) : Except ReportError ReportOk :=
  match fetch_call_sql db script with
  | none => .error .noTemplateFound
  | some callSql =>
    let abbr := resolveStateLenient db.stateRows state
    let prepared := applyCountySubst counties (reSubStateToken abbr callSql)
    let res := db.runQuery prepared
    .ok ⟨res.1, res.2⟩

/-- db.py `PgPool` state: the idle queue length, the number of connections
    currently checked out, the number ever created, and the configured
    maximum.  Connections are interchangeable, so counts suffice. -/
structure PoolState where
  idle : Nat
  held : Nat
  created : Nat
  maxSize : Nat
deriving DecidableEq

/-- db.py `PgPool.__init__`: eagerly create `minSize` idle connections. -/
def poolInit (minSize maxSize : Nat) : PoolState :=
  ⟨minSize, 0, minSize, maxSize⟩

/-- db.py `getconn`: if the queue is empty and fewer than `maxSize`
    connections were ever created, create a new one; otherwise pop the
    queue — which blocks (`none`) exactly when the queue is empty. -/
def getconnStep (s : PoolState) : Option PoolState :=
  if s.idle = 0 ∧ s.created < s.maxSize then
    some { s with created := s.created + 1, held := s.held + 1 }
  else if 0 < s.idle then
    some { s with idle := s.idle - 1, held := s.held + 1 }
  else none

/-- db.py `putconn`: unconditionally return the connection to the queue. -/
def putconnStep (s : PoolState) : PoolState :=
  { s with idle := s.idle + 1, held := s.held - 1 }

/-- One pool operation issued by some caller: an acquire, or a release of a
    connection that caller holds. -/
inductive PoolOp
| acquire
| release
deriving DecidableEq

/-- Transition of the pool under one operation; `none` when the operation
    cannot proceed (an acquire that blocks, or a release with nothing
    held, which no well-formed caller can issue). -/
def poolStep (s : PoolState) : PoolOp → Option PoolState
| .acquire => getconnStep s
| .release => if 0 < s.held then some (putconnStep s) else none

/-- Run a sequence of pool operations from a state. -/
def runPoolOps (s : PoolState) : List PoolOp → Option PoolState
| [] => some s
| op :: ops => (poolStep s op).bind (fun s2 => runPoolOps s2 ops)

/-- export.py `export_csv` endpoint: the empty-attributes check happens
    before any connection is leased; otherwise the body runs on a leased
    connection that `finally: pool.putconn(conn)` always returns.  `none`
    models a request still blocked on `getconn`. -/
def export_csv_endpoint (db : Db) (state : Str) (counties : Option (List Str))
    (attributes : List Str) (p : PoolState) :
    Option (Except ExportError ExportOk × PoolState) :=
  if attributes = [] then some (.error .emptyAttributeList, p)
  else
    match getconnStep p with
    | none => none
    | some p1 => some (export_run db state counties attributes, putconnStep p1)

/-- export.py `list_attributes` body: resolve the state and list the
    per-state table's columns. -/
def list_attributes_run (db : Db) (state : Str) : Except ExportError (List Str) :=
  match resolveStateStrict db.stateRows state with
  | none => .error .unknownState
  | some abbr =>
    let cols := db.columnsOf (str "bdc_" ++ abbr)
    if cols = [] then .error .noSuchTable else .ok cols

/-- export.py `list_attributes` endpoint with its try/finally lease. -/
def list_attributes_endpoint (db : Db) (state : Str) (p : PoolState) :
    Option (Except ExportError (List Str) × PoolState) :=
  match getconnStep p with
  | none => none
  | some p1 => some (list_attributes_run db state, putconnStep p1)

/-- reports.py `run_report` endpoint with its try/finally lease. -/
def run_report_endpoint (db : Db) (script state : Str)
    (counties : Option (List Str)) (p : PoolState) :
    Option (Except ReportError ReportOk × PoolState) :=
  match getconnStep p with
  | none => none
  | some p1 => some (run_report_run db script state counties, putconnStep p1)

/-- meta.py `get_states` endpoint with its try/finally lease. -/
def get_states_endpoint (db : Db) (p : PoolState) :
    Option (List Str × PoolState) :=
  match getconnStep p with
  | none => none
  | some p1 => some (db.distinctStateNames, putconnStep p1)

/-- meta.py `get_counties` endpoint: the empty-state check happens before
    any connection is leased; `Unit` stands for its one client error. -/
def get_counties_endpoint (db : Db) (state : Str) (p : PoolState) :
    Option (Except Unit (List Str) × PoolState) :=
  if state = [] then some (.error (), p)
  else
    match getconnStep p with
    | none => none
    | some p1 => some (.ok (db.countiesFor state), putconnStep p1)

deriving instance DecidableEq for Except

/-- Concrete database used to evaluate the export path on a state table
    that has neither a county-like nor a geo-id column. -/
def dbC1 : Db :=
  ⟨[(str "california", str "ca")],
   fun t => if t = str "bdc_ca" then [str "id", str "speed"] else [],
   fun _ => false, [], fun _ => none, fun _ => ([], []), [], fun _ => []⟩

/-- Relation between the pool before a request leases a connection and
    after the request's `finally` returns it: nothing stays checked out
    beyond the request, and the idle queue is restored (one larger exactly
    when the lease created a fresh connection). -/
def poolRestored (p p2 : PoolState) : Prop :=
  p2.held = p.held ∧
  (p2.idle = p.idle ∧ p2.created = p.created ∨
   p2.idle = p.idle + 1 ∧ p2.created = p.created + 1)

theorem find?_eq_head?_filter (p : α → Bool) (l : List α) :
    l.find? p = (l.filter p).head? := by
  induction l with
  | nil => rfl
  | cons a l ih =>
    by_cases hp : p a = true
    · rw [List.find?_cons_of_pos l hp, List.filter_cons_of_pos hp]
      rfl
    · rw [List.find?_cons_of_neg l hp, List.filter_cons_of_neg hp]
      exact ih

theorem reverse_find?_eq_getLast?_filter (p : α → Bool) (l : List α) :
    l.reverse.find? p = (l.filter p).getLast? := by
  rw [find?_eq_head?_filter, List.filter_reverse, List.head?_reverse]

theorem pyDictGet_map_pair (f : Str → Str) (T : List Str) (k : Str) :
    pyDictGet (T.map (fun c => (f c, c))) k =
      (T.filter (fun t => decide (f t = k))).getLast? := by
  unfold pyDictGet
  rw [← List.map_reverse, List.find?_map, Option.map_map]
  have h1 : ((fun p : Str × Str => p.2) ∘ fun c => (f c, c)) = fun t : Str => t := rfl
  have h2 : ((fun p : Str × Str => decide (p.1 = k)) ∘ fun c => (f c, c)) =
      fun t => decide (f t = k) := rfl
  rw [h1, h2, reverse_find?_eq_getLast?_filter]
  simp

/-- C3 (counterexample): the code keeps one selected column per matching
    requested attribute; a case-variant duplicate request is not removed,
    contradicting the claimed duplicate removal. -/
theorem export_selected_duplicates_kept :
    exportSelected [str "pop"] [str "pop", str "POP"] = [str "pop", str "pop"] ∧
    [str "pop", str "pop"] ≠ [str "pop"] := by
  constructor
  · decide
  · decide

/-- C3 (amended): the selected column list (and CSV header) is the
    case-insensitive intersection of the requested attributes with the
    table's columns, in request order, unmatched requests dropped, each
    matching request occurrence kept (duplicates preserved, not removed),
    every entry rendered as the last table column whose lower-cased name
    equals the trimmed lower-cased request. -/
theorem export_selected_characterization (available attributes : List Str) :
    exportSelected available attributes = selectedSpec available attributes := by
  unfold exportSelected selectedSpec
  refine List.filterMap_congr (fun a ha => ?_)
  exact pyDictGet_map_pair pyLower available (pyLower (pyStrip a))

theorem parseIdentBody_escape (s rest : Str) (h : rest.head? ≠ some '"') :
    parseIdentBody (escapeQuotes s ++ ('"' :: rest)) = some (s, rest) := by
  induction s with
  | nil =>
    cases rest with
    | nil => simp [escapeQuotes, parseIdentBody]
    | cons r rs =>
      have hr : r ≠ '"' := by simpa using h
      simp [escapeQuotes, parseIdentBody, hr]
  | cons c t ih =>
    by_cases hc : c = '"'
    · subst hc
      simp [escapeQuotes, parseIdentBody, ih]
    · rw [show escapeQuotes (c :: t) ++ ('"' :: rest) =
          c :: (escapeQuotes t ++ ('"' :: rest)) by simp [escapeQuotes, hc]]
      rw [parseIdentBody.eq_def]
      simp only []
      rw [if_neg hc, ih]
      rfl

/-- C7: `_quote_ident` always yields a string that parses as exactly one
    double-quoted SQL identifier whose name round-trips to the input, and
    whatever follows the quoted form is left unconsumed — an embedded
    double quote cannot terminate the quoted context early, so identifiers
    cannot inject SQL. -/
theorem quote_ident_roundtrip (s rest : Str) (h : rest.head? ≠ some '"') :
    parseQuotedIdent (quoteIdent s ++ rest) = some (s, rest) := by
  have he : quoteIdent s ++ rest = '"' :: (escapeQuotes s ++ ('"' :: rest)) := by
    simp [quoteIdent]
  rw [he]
  show parseIdentBody (escapeQuotes s ++ ('"' :: rest)) = some (s, rest)
  exact parseIdentBody_escape s rest h

/-- C7 witness: a name containing a double quote, followed by further SQL
    text, parses back to exactly that name with the text untouched. -/
theorem quote_ident_roundtrip_witness :
    (str "; DROP").head? ≠ some '"' ∧
    parseQuotedIdent (quoteIdent (str "we\"ird") ++ str "; DROP") =
      some (str "we\"ird", str "; DROP") :=
  ⟨by decide, quote_ident_roundtrip (str "we\"ird") (str "; DROP") (by decide)⟩

/-- C1 (code evaluation at the failing input): on a state table whose
    columns are `id, speed` — no county-like and no geo-id column — a
    request with a county filter succeeds with the filter silently dropped
    (`CountyFilter.noFilter`) instead of failing with
    `NoCountyFilterSupport`: the `if county_col: / elif block_geoid_col:`
    chain of `export_csv` has no `else` branch. -/
theorem export_county_filter_silently_dropped :
    export_run dbC1 (str "California") (some [str "Orange"]) [str "id"] =
      .ok ⟨[str "id"], .noFilter, str "export_ca.csv"⟩ ∧
    export_run dbC1 (str "California") (some [str "Orange"]) [str "id"] ≠
      .error .noCountyFilterSupport := by
  constructor
  · decide
  · decide

theorem export_run_some_nil (db : Db) (state : Str) (attributes : List Str) :
    export_run db state (some []) attributes = export_run db state none attributes := by
  unfold export_run
  cases resolveStateStrict db.stateRows state <;> simp [pyTruthyList]

/-- C9: an explicit empty county list is treated exactly like an absent
    one — the endpoint's behaviour coincides on `some []` and `none`, and
    on the happy path the whole state table is exported with no county
    filter and no error. -/
theorem export_empty_counties_like_absent :
    (∀ db state attributes p,
       export_csv_endpoint db state (some []) attributes p =
         export_csv_endpoint db state none attributes p) ∧
    (∀ db state attributes abbr,
       resolveStateStrict db.stateRows state = some abbr →
       db.columnsOf (str "bdc_" ++ abbr) ≠ [] →
       exportSelected (db.columnsOf (str "bdc_" ++ abbr)) attributes ≠ [] →
       export_run db state (some []) attributes =
         .ok ⟨exportSelected (db.columnsOf (str "bdc_" ++ abbr)) attributes,
              .noFilter, str "export_" ++ abbr ++ str ".csv"⟩) := by
  constructor
  · intro db state attributes p
    unfold export_csv_endpoint
    rw [export_run_some_nil]
  · intro db state attributes abbr h1 h2 h3
    unfold export_run
    rw [h1]
    simp [pyTruthyList, h2, h3]

/-- C9 witness at a concrete database, state and attribute list. -/
theorem export_empty_counties_like_absent_witness :
    resolveStateStrict dbC1.stateRows (str "California") = some (str "ca") ∧
    dbC1.columnsOf (str "bdc_" ++ str "ca") ≠ [] ∧
    exportSelected (dbC1.columnsOf (str "bdc_" ++ str "ca")) [str "id"] ≠ [] ∧
    export_run dbC1 (str "California") (some []) [str "id"] =
      .ok ⟨exportSelected (dbC1.columnsOf (str "bdc_" ++ str "ca")) [str "id"],
           .noFilter, str "export_" ++ str "ca" ++ str ".csv"⟩ :=
  ⟨by decide, by decide, by decide,
   export_empty_counties_like_absent.2 dbC1 (str "California") [str "id"] (str "ca")
     (by decide) (by decide) (by decide)⟩

theorem exportSelected_eq_nil_of_no_match (T A : List Str)
    (h : ∀ a ∈ A, ∀ t ∈ T, pyLower t ≠ pyLower (pyStrip a)) :
    exportSelected T A = [] := by
  unfold exportSelected
  rw [List.filterMap_eq_nil_iff]
  intro a ha
  have hfind : (T.map (fun c => (pyLower c, c))).reverse.find?
      (fun p => decide (p.1 = pyLower (pyStrip a))) = none := by
    rw [List.find?_eq_none]
    intro x hx
    simp only [List.mem_reverse, List.mem_map] at hx
    obtain ⟨t, ht, rfl⟩ := hx
    simpa using h a ha t ht
  simp [pyDictGet, hfind]

/-- C6: an empty attribute list fails with `EmptyAttributeList` before any
    query is executed (the result is the same for every database state and
    the pool is untouched); a non-empty attribute list none of whose
    entries matches a column case-insensitively fails with
    `NoValidAttributes`; both carry a 4xx status. -/
theorem export_attribute_error_paths :
    (∀ db state counties p,
       export_csv_endpoint db state counties [] p =
         some (.error .emptyAttributeList, p)) ∧
    (∀ db state counties attributes abbr,
       resolveStateStrict db.stateRows state = some abbr →
       db.columnsOf (str "bdc_" ++ abbr) ≠ [] →
       (∀ a ∈ attributes, ∀ t ∈ db.columnsOf (str "bdc_" ++ abbr),
          pyLower t ≠ pyLower (pyStrip a)) →
       export_run db state counties attributes = .error .noValidAttributes) ∧
    exportStatusCode .emptyAttributeList = 400 ∧
    exportStatusCode .noValidAttributes = 400 := by
  refine ⟨?_, ?_, rfl, rfl⟩
  · intro db state counties p
    unfold export_csv_endpoint
    simp
  · intro db state counties attributes abbr h1 h2 h3
    have hsel := exportSelected_eq_nil_of_no_match (db.columnsOf (str "bdc_" ++ abbr))
      attributes h3
    unfold export_run
    rw [h1]
    simp [h2, hsel]

/-- C6 witness: concrete empty and all-unmatched attribute requests. -/
theorem export_attribute_error_paths_witness :
    resolveStateStrict dbC1.stateRows (str "CA") = some (str "ca") ∧
    dbC1.columnsOf (str "bdc_" ++ str "ca") ≠ [] ∧
    export_run dbC1 (str "CA") none [str "population"] = .error .noValidAttributes :=
  ⟨by decide, by decide,
   export_attribute_error_paths.2.1 dbC1 (str "CA") none [str "population"] (str "ca")
     (by decide) (by decide) (by decide)⟩

theorem getconnStep_preserves (s s2 : PoolState) (h : getconnStep s = some s2)
    (hinv : s.created ≤ s.maxSize) :
    s2.created ≤ s2.maxSize ∧ s2.maxSize = s.maxSize := by
  unfold getconnStep at h
  split_ifs at h with h1 h2
  · injection h with h
    subst h
    exact ⟨h1.2, rfl⟩
  · injection h with h
    subst h
    exact ⟨hinv, rfl⟩

theorem poolStep_preserves (s s2 : PoolState) (op : PoolOp)
    (h : poolStep s op = some s2) (hinv : s.created ≤ s.maxSize) :
    s2.created ≤ s2.maxSize ∧ s2.maxSize = s.maxSize := by
  cases op with
  | acquire =>
    simp only [poolStep] at h
    exact getconnStep_preserves s s2 h hinv
  | release =>
    simp only [poolStep] at h
    split_ifs at h with h1
    · injection h with h
      subst h
      exact ⟨hinv, rfl⟩

theorem runPoolOps_inv (ops : List PoolOp) :
    ∀ (s s2 : PoolState), s.created ≤ s.maxSize →
      runPoolOps s ops = some s2 → s2.created ≤ s2.maxSize ∧ s2.maxSize = s.maxSize := by
  induction ops with
  | nil =>
    intro s s2 hinv h
    unfold runPoolOps at h
    injection h with h
    subst h
    exact ⟨hinv, rfl⟩
  | cons op ops ih =>
    intro s s2 hinv h
    unfold runPoolOps at h
    cases hstep : poolStep s op with
    | none => rw [hstep] at h; exact Option.noConfusion h
    | some s1 =>
      rw [hstep] at h
      simp only [Option.some_bind] at h
      obtain ⟨ha, hb⟩ := poolStep_preserves s s1 op hstep hinv
      obtain ⟨hc, hd⟩ := ih s1 s2 ha h
      exact ⟨hc, hd.trans hb⟩

/-- C8: the pool is constructed with exactly `minSize` idle connections;
    `acquire` pops an idle connection whenever one exists, creates a new
    connection exactly when none is idle and fewer than `maxSize` were
    ever created, and blocks otherwise; and along every executable
    operation sequence the number of connections ever created never
    exceeds `maxSize` (for configurations with `minSize ≤ maxSize`). -/
theorem pool_bounded_semantics :
    (∀ minSize maxSize : Nat, poolInit minSize maxSize = ⟨minSize, 0, minSize, maxSize⟩) ∧
    (∀ s : PoolState, 0 < s.idle →
       getconnStep s = some ⟨s.idle - 1, s.held + 1, s.created, s.maxSize⟩) ∧
    (∀ s : PoolState, s.idle = 0 → s.created < s.maxSize →
       getconnStep s = some ⟨0, s.held + 1, s.created + 1, s.maxSize⟩) ∧
    (∀ s : PoolState, s.idle = 0 → ¬ s.created < s.maxSize → getconnStep s = none) ∧
    (∀ (minSize maxSize : Nat) (ops : List PoolOp) (s2 : PoolState),
       minSize ≤ maxSize → runPoolOps (poolInit minSize maxSize) ops = some s2 →
       s2.created ≤ maxSize) := by
  refine ⟨fun _ _ => rfl, ?_, ?_, ?_, ?_⟩
  · intro s h
    have h1 : ¬(s.idle = 0 ∧ s.created < s.maxSize) := by
      intro hc
      omega
    unfold getconnStep
    rw [if_neg h1, if_pos h]
  · intro s h0 hlt
    unfold getconnStep
    rw [if_pos ⟨h0, hlt⟩, show s.idle = 0 from h0]
  · intro s h0 hge
    have h2 : ¬ 0 < s.idle := by omega
    unfold getconnStep
    rw [if_neg (fun hc => hge hc.2), if_neg h2]
  · intro minSize maxSize ops s2 hm h
    have hinv : (poolInit minSize maxSize).created ≤ (poolInit minSize maxSize).maxSize := by
      simpa [poolInit] using hm
    obtain ⟨hc, hd⟩ := runPoolOps_inv ops (poolInit minSize maxSize) s2 hinv h
    rw [hd] at hc
    simpa [poolInit] using hc

/-- C8 witness: a pool of `minSize 1, maxSize 2` under acquire, acquire,
    release — the second acquire creates the second and last permitted
    connection. -/
theorem pool_bounded_semantics_witness :
    1 ≤ 2 ∧
    runPoolOps (poolInit 1 2) [PoolOp.acquire, PoolOp.acquire, PoolOp.release] =
      some ⟨1, 1, 2, 2⟩ ∧
    (⟨1, 1, 2, 2⟩ : PoolState).created ≤ 2 :=
  ⟨by decide, by decide,
   pool_bounded_semantics.2.2.2.2 1 2 [PoolOp.acquire, PoolOp.acquire, PoolOp.release]
     ⟨1, 1, 2, 2⟩ (by decide) (by decide)⟩

theorem lease_release_restores (p p1 : PoolState) (h : getconnStep p = some p1) :
    poolRestored p (putconnStep p1) := by
  unfold getconnStep at h
  split_ifs at h with h1 h2
  · injection h with h
    subst h
    exact ⟨by simp [putconnStep], Or.inr ⟨rfl, rfl⟩⟩
  · injection h with h
    subst h
    refine ⟨by simp [putconnStep], Or.inl ⟨?_, rfl⟩⟩
    simp only [putconnStep]
    omega

theorem leased_pair_restores (p : PoolState) (body : α) (r : α) (p2 : PoolState)
    (h : (match getconnStep p with
          | none => none
          | some p1 => some (body, putconnStep p1)) = some (r, p2)) :
    poolRestored p p2 := by
  cases hg : getconnStep p with
  | none => rw [hg] at h; exact Option.noConfusion h
  | some p1 =>
    rw [hg] at h
    simp only [Option.some.injEq, Prod.mk.injEq] at h
    obtain ⟨-, hp⟩ := h
    exact hp ▸ lease_release_restores p p1 hg

/-- C10: every endpoint that leases a connection returns it exactly once on
    every completed execution path — success or error — so the number of
    checked-out connections is restored and the idle queue is the same
    (one larger only when the lease had created a fresh connection); the
    two endpoints that can fail before leasing leave the pool untouched. -/
theorem endpoints_always_release :
    (∀ db state counties attributes p r p2,
       export_csv_endpoint db state counties attributes p = some (r, p2) →
       poolRestored p p2) ∧
    (∀ db state p r p2,
       list_attributes_endpoint db state p = some (r, p2) → poolRestored p p2) ∧
    (∀ db script state counties p r p2,
       run_report_endpoint db script state counties p = some (r, p2) →
       poolRestored p p2) ∧
    (∀ db p r p2, get_states_endpoint db p = some (r, p2) → poolRestored p p2) ∧
    (∀ db state p r p2,
       get_counties_endpoint db state p = some (r, p2) → poolRestored p p2) := by
  refine ⟨?_, ?_, ?_, ?_, ?_⟩
  · intro db state counties attributes p r p2 h
    unfold export_csv_endpoint at h
    split_ifs at h with h1
    · simp only [Option.some.injEq, Prod.mk.injEq] at h
      obtain ⟨-, hp⟩ := h
      exact hp ▸ ⟨rfl, Or.inl ⟨rfl, rfl⟩⟩
    · exact leased_pair_restores p _ r p2 h
  · intro db state p r p2 h
    unfold list_attributes_endpoint at h
    exact leased_pair_restores p _ r p2 h
  · intro db script state counties p r p2 h
    unfold run_report_endpoint at h
    exact leased_pair_restores p _ r p2 h
  · intro db p r p2 h
    unfold get_states_endpoint at h
    exact leased_pair_restores p _ r p2 h
  · intro db state p r p2 h
    unfold get_counties_endpoint at h
    split_ifs at h with h1
    · simp only [Option.some.injEq, Prod.mk.injEq] at h
      obtain ⟨-, hp⟩ := h
      exact hp ▸ ⟨rfl, Or.inl ⟨rfl, rfl⟩⟩
    · exact leased_pair_restores p _ r p2 h

/-- C10 witness: a concrete request leaves the pool exactly as it found
    it. -/
theorem endpoints_always_release_witness :
    export_csv_endpoint dbC1 (str "California") none [str "id"] ⟨1, 0, 1, 10⟩ =
      some (.ok ⟨[str "id"], .noFilter, str "export_ca.csv"⟩, ⟨1, 0, 1, 10⟩) ∧
    poolRestored ⟨1, 0, 1, 10⟩ ⟨1, 0, 1, 10⟩ :=
  ⟨by decide,
   endpoints_always_release.1 dbC1 (str "California") none [str "id"] ⟨1, 0, 1, 10⟩
     (.ok ⟨[str "id"], .noFilter, str "export_ca.csv"⟩) ⟨1, 0, 1, 10⟩ (by decide)⟩

theorem span_append_break (p : α → Bool) (q : α) (r : List α) (hq : p q = false) :
    ∀ l : List α, l.all p = true →
      (l ++ q :: r).takeWhile p = l ∧ (l ++ q :: r).dropWhile p = q :: r := by
  intro l
  induction l with
  | nil => intro _; simp [List.takeWhile_cons, List.dropWhile_cons, hq]
  | cons a l ih =>
    intro hl
    rw [List.all_cons, Bool.and_eq_true] at hl
    obtain ⟨ha, hl2⟩ := hl
    obtain ⟨ht, hd⟩ := ih hl2
    constructor
    · simpa [List.takeWhile_cons, ha] using ht
    · simpa [List.dropWhile_cons, ha] using hd

theorem isQuoteChar_not_word (q : Char) (h : isQuoteChar q = true) : isWordChar q = false := by
  simp only [isQuoteChar, Bool.or_eq_true, decide_eq_true_eq] at h
  rcases h with h | h <;> subst h <;> decide

theorem reSub_single_token (abbr w : Str) (q : Char) (hq : isQuoteChar q = true)
    (hw : w.all isWordChar = true) (hs : tokenShape w = true) :
    reSubStateToken abbr (q :: (w ++ [q])) = q :: (abbr ++ [q]) := by
  have hqw := isQuoteChar_not_word q hq
  obtain ⟨ht, hd⟩ := span_append_break isWordChar q [] hqw w hw
  rw [reSubStateToken]
  simp only [ht, hd, List.head?_cons, List.tail_cons]
  rw [if_pos ⟨hq, hs, trivial⟩]
  rw [reSubStateToken]

/-- C2 (counterexample): substituting for state `tx`, the quoted token
    `'table_ca'` is rewritten to `'tx'` — the word-character prefix and
    underscore are dropped, not kept, because the replacement is
    `quote + abbr + quote` for the whole match. -/
theorem run_report_token_prefix_dropped :
    reSubStateToken (str "tx") (str "'table_ca'") = str "'tx'" ∧
    str "'tx'" ≠ str "'table_tx'" := by
  constructor
  · have h := reSub_single_token (str "tx") (str "table_ca") '\''
      (by decide) (by decide) (by decide)
    have he : str "'table_ca'" = '\'' :: (str "table_ca" ++ ['\'']) := by decide
    rw [he, h]
    decide
  · decide

/-- Rewriting step of the scanner at a match: an opening quote followed by
    an all-word token-shaped run closed by the same quote is replaced by
    the quote-wrapped abbreviation, and scanning resumes after the closing
    quote on the remaining text. -/
theorem reSub_match_head (abbr w rest : Str) (q : Char) (hq : isQuoteChar q = true)
    (hw : w.all isWordChar = true) (hs : tokenShape w = true) :
    reSubStateToken abbr (q :: (w ++ (q :: rest))) =
      q :: (abbr ++ (q :: reSubStateToken abbr rest)) := by
  have hqw : isWordChar q = false := isQuoteChar_not_word q hq
  obtain ⟨ht, hd⟩ := span_append_break isWordChar q rest hqw w hw
  rw [reSubStateToken]
  simp only [ht, hd, List.head?_cons, List.tail_cons]
  rw [if_pos ⟨by simpa using hq, hs, trivial⟩]

/-- Copy step of the scanner: a non-quote character is left untouched. -/
theorem reSub_skip_nonquote (abbr : Str) (c : Char) (rest : Str)
    (h : isQuoteChar c = false) :
    reSubStateToken abbr (c :: rest) = c :: reSubStateToken abbr rest := by
  rw [reSubStateToken]
  rw [if_neg (fun hc => absurd hc.1 (by simp [h]))]

/-- Copy step of the scanner: a quote character not opening a matched token
    (wrong shape or wrong closing quote) is left untouched. -/
theorem reSub_skip_no_token (abbr : Str) (c : Char) (rest : Str)
    (hnm : ¬(tokenShape (rest.takeWhile isWordChar) = true ∧
             (rest.dropWhile isWordChar).head? = some c)) :
    reSubStateToken abbr (c :: rest) = c :: reSubStateToken abbr rest := by
  rw [reSubStateToken]
  rw [if_neg (fun hc => hnm ⟨hc.2.1, hc.2.2⟩)]

/-- Context law for the substitution: a quoted token embedded after any
    quote-free stretch of template text is rewritten in place, the
    surrounding text is preserved verbatim, and scanning continues on the
    text after the token — applying the law again to that remainder
    handles every further token of the template. -/
theorem reSub_context (abbr w rest : Str) (q : Char)
    (hq : isQuoteChar q = true) (hw : w.all isWordChar = true)
    (hs : tokenShape w = true) :
    ∀ pre : Str, pre.all (fun c => !isQuoteChar c) = true →
      reSubStateToken abbr (pre ++ (q :: (w ++ (q :: rest)))) =
        pre ++ (q :: (abbr ++ (q :: reSubStateToken abbr rest))) := by
  intro pre
  induction pre with
  | nil => intro _; simpa using reSub_match_head abbr w rest q hq hw hs
  | cons p pre2 ih =>
    intro hpre
    rw [List.all_cons, Bool.and_eq_true] at hpre
    obtain ⟨hp, hpre2⟩ := hpre
    have hpq : isQuoteChar p = false := by
      cases hb : isQuoteChar p
      · rfl
      · rw [hb] at hp
        exact absurd hp (by decide)
    calc reSubStateToken abbr ((p :: pre2) ++ (q :: (w ++ (q :: rest))))
        = p :: reSubStateToken abbr (pre2 ++ (q :: (w ++ (q :: rest)))) := by
          simpa using reSub_skip_nonquote abbr p (pre2 ++ (q :: (w ++ (q :: rest)))) hpq
      _ = p :: (pre2 ++ (q :: (abbr ++ (q :: reSubStateToken abbr rest)))) := by
          rw [ih hpre2]
      _ = (p :: pre2) ++ (q :: (abbr ++ (q :: reSubStateToken abbr rest))) := rfl

/-- C2 (amended): scanning any stored template, each quoted token matching
    the pattern quote, word characters, underscore, two lowercase letters,
    matching quote is rewritten in place by replacing the entire quoted
    contents — prefix, underscore and suffix — with the resolved
    abbreviation, keeping only the surrounding quote character, while all
    non-token text is preserved verbatim: a token after a quote-free
    stretch is substituted with scanning continuing on the remainder
    (covering multiple tokens by recursion), a non-quote character is
    copied unchanged, a quote not opening a matched token is copied
    unchanged; and when the state is not in the dimension mappings the
    abbreviation used is the trimmed upper-cased input rather than an
    error. -/
theorem run_report_token_substitution :
    (∀ (abbr w rest pre : Str) (q : Char),
       isQuoteChar q = true → w.all isWordChar = true → tokenShape w = true →
       pre.all (fun c => !isQuoteChar c) = true →
       reSubStateToken abbr (pre ++ (q :: (w ++ (q :: rest)))) =
         pre ++ (q :: (abbr ++ (q :: reSubStateToken abbr rest)))) ∧
    (∀ (abbr : Str) (c : Char) (rest : Str), isQuoteChar c = false →
       reSubStateToken abbr (c :: rest) = c :: reSubStateToken abbr rest) ∧
    (∀ (abbr : Str) (c : Char) (rest : Str),
       ¬(tokenShape (rest.takeWhile isWordChar) = true ∧
         (rest.dropWhile isWordChar).head? = some c) →
       reSubStateToken abbr (c :: rest) = c :: reSubStateToken abbr rest) ∧
    (∀ (rows : List (Str × Str)) (state : Str),
       pyDictGet (lenientAbbrMap rows) (pyLower (pyStrip state)) = none →
       resolveStateLenient rows state = pyUpper (pyStrip state)) := by
  refine ⟨?_, ?_, ?_, ?_⟩
  · intro abbr w rest pre q hq hw hs hpre
    exact reSub_context abbr w rest q hq hw hs pre hpre
  · intro abbr c rest h
    exact reSub_skip_nonquote abbr c rest h
  · intro abbr c rest hnm
    exact reSub_skip_no_token abbr c rest hnm
  · intro rows state hmiss
    unfold resolveStateLenient
    rw [hmiss]

/-- C2 witness: a token embedded in surrounding SQL text with a trailing
    WHERE clause, a copied non-quote character, a quote that opens no
    token, and a state missing from the dimension rows. -/
theorem run_report_token_substitution_witness :
    isQuoteChar '\'' = true ∧
    (str "table_ca").all isWordChar = true ∧
    tokenShape (str "table_ca") = true ∧
    (str "SELECT * FROM ").all (fun c => !isQuoteChar c) = true ∧
    reSubStateToken (str "tx")
        (str "SELECT * FROM " ++ ('\'' :: (str "table_ca" ++ ('\'' :: str " WHERE x")))) =
      str "SELECT * FROM " ++
        ('\'' :: (str "tx" ++ ('\'' :: reSubStateToken (str "tx") (str " WHERE x")))) ∧
    isQuoteChar 'S' = false ∧
    reSubStateToken (str "tx") ('S' :: str "ELECT") =
      'S' :: reSubStateToken (str "tx") (str "ELECT") ∧
    ¬(tokenShape ((str "x").takeWhile isWordChar) = true ∧
      ((str "x").dropWhile isWordChar).head? = some '\'') ∧
    reSubStateToken (str "tx") ('\'' :: str "x") =
      '\'' :: reSubStateToken (str "tx") (str "x") ∧
    pyDictGet (lenientAbbrMap [(str "california", str "ca")])
      (pyLower (pyStrip (str " TeXas "))) = none ∧
    resolveStateLenient [(str "california", str "ca")] (str " TeXas ") =
      pyUpper (pyStrip (str " TeXas ")) := by
  refine ⟨by decide, by decide, by decide, by decide, ?_, by decide, ?_, by decide, ?_, by decide, ?_⟩
  · exact run_report_token_substitution.1 (str "tx") (str "table_ca") (str " WHERE x")
      (str "SELECT * FROM ") '\'' (by decide) (by decide) (by decide) (by decide)
  · exact run_report_token_substitution.2.1 (str "tx") 'S' (str "ELECT") (by decide)
  · exact run_report_token_substitution.2.2.1 (str "tx") '\'' (str "x") (by decide)
  · exact run_report_token_substitution.2.2.2 [(str "california", str "ca")]
      (str " TeXas ") (by decide)

theorem pyReplaceNull_head (repl b : Str) :
    pyReplaceNull repl (nullTok ++ b) = repl ++ pyReplaceNull repl b := rfl

theorem pyReplaceNull_cons_no (repl : Str) (c : Char) (cs : Str)
    (h : nullTok.isPrefixOf (c :: cs) = false) :
    pyReplaceNull repl (c :: cs) = c :: pyReplaceNull repl cs := by
  rw [pyReplaceNull.eq_def]
  split
  · rename_i rest heq
    exfalso
    rw [heq] at h
    simp [nullTok, str, List.isPrefixOf] at h
  · rename_i c2 rest2 hne heq
    injection heq with h1 h2
    subst h1
    subst h2
    rfl
  · rename_i heq
    exact absurd heq (by simp)

theorem isSubstr_cons_false (needle : Str) (c : Char) (cs : Str)
    (h : isSubstr needle (c :: cs) = false) :
    needle.isPrefixOf (c :: cs) = false ∧ isSubstr needle cs = false := by
  rw [isSubstr, Bool.or_eq_false_iff] at h
  exact h

theorem no_crossing (b : Str) :
    ∀ (l : Str), l ≠ [] → nullTok.isPrefixOf (l ++ (nullTok ++ b)) = true →
      nullTok.isPrefixOf l = true := by
  intro l
  match l with
  | [] => intro hne _; exact absurd rfl hne
  | [c1] =>
    intro _ hp
    exfalso
    simp [nullTok, str, List.isPrefixOf] at hp
  | [c1, c2] =>
    intro _ hp
    exfalso
    simp [nullTok, str, List.isPrefixOf] at hp
  | [c1, c2, c3] =>
    intro _ hp
    exfalso
    simp [nullTok, str, List.isPrefixOf] at hp
  | c1 :: c2 :: c3 :: c4 :: l2 =>
    intro _ hp
    simp only [nullTok, str, List.isPrefixOf, List.cons_append, Bool.and_eq_true] at hp ⊢
    exact ⟨hp.1, hp.2.1, hp.2.2.1, hp.2.2.2.1, by simp [List.isPrefixOf]⟩

theorem replace_null_scan (repl b : Str) :
    ∀ (a : Str), isSubstr nullTok a = false →
      pyReplaceNull repl (a ++ (nullTok ++ b)) = a ++ (repl ++ pyReplaceNull repl b) := by
  intro a
  induction a with
  | nil => intro _; simpa using pyReplaceNull_head repl b
  | cons c a2 ih =>
    intro h
    obtain ⟨h1, h2⟩ := isSubstr_cons_false nullTok c a2 h
    have hnp : nullTok.isPrefixOf ((c :: a2) ++ (nullTok ++ b)) = false := by
      cases hb : nullTok.isPrefixOf ((c :: a2) ++ (nullTok ++ b)) with
      | false => rfl
      | true =>
        rw [no_crossing b (c :: a2) (by simp) hb] at h1
        exact absurd h1 (by simp)
    have hcons := pyReplaceNull_cons_no repl c (a2 ++ (nullTok ++ b)) (by simpa using hnp)
    calc pyReplaceNull repl ((c :: a2) ++ (nullTok ++ b))
        = c :: pyReplaceNull repl (a2 ++ (nullTok ++ b)) := by simpa using hcons
      _ = c :: (a2 ++ (repl ++ pyReplaceNull repl b)) := by rw [ih h2]
      _ = (c :: a2) ++ (repl ++ pyReplaceNull repl b) := rfl

/-- C4 (counterexample): with a specific county list, the substitution is a
    plain substring replace — the `null` inside the longer word `nullable`
    is rewritten too, so the result differs from the claimed
    leave-longer-words-alone behaviour (which would return the template
    unchanged, as it contains no standalone `null` token). -/
theorem run_report_null_inside_word_replaced :
    applyCountySubst (some [str "06001"]) (str "x nullable") = str "x '06001'able" ∧
    str "x '06001'able" ≠ str "x nullable" := by
  constructor
  · decide
  · decide

/-- C4 (amended): `counties=["All"]` (and an absent county list) performs
    no substitution; a specific county list replaces every occurrence of
    the substring `null` — including occurrences inside longer words — by
    the single-quoted comma-joined county list, e.g. `["06001","06013"]`
    yields `'06001,06013'`. -/
theorem run_report_county_substitution (t a b : Str) (cs : List Str)
    (hne : cs ≠ []) (hall : cs ≠ [str "All"]) (ha : isSubstr nullTok a = false) :
    applyCountySubst (some [str "All"]) t = t ∧
    applyCountySubst none t = t ∧
    joinedCounties [str "06001", str "06013"] = str "'06001,06013'" ∧
    applyCountySubst (some cs) (a ++ (nullTok ++ b)) =
      a ++ (joinedCounties cs ++ pyReplaceNull (joinedCounties cs) b) := by
  refine ⟨by simp [applyCountySubst], rfl, by decide, ?_⟩
  show (if cs ≠ [] ∧ cs ≠ [str "All"] then
      pyReplaceNull (joinedCounties cs) (a ++ (nullTok ++ b))
    else a ++ (nullTok ++ b)) =
    a ++ (joinedCounties cs ++ pyReplaceNull (joinedCounties cs) b)
  rw [if_pos ⟨hne, hall⟩]
  exact replace_null_scan (joinedCounties cs) b a ha

/-- C4 witness: a concrete template around one `null` token and the
    two-county list of the claim. -/
theorem run_report_county_substitution_witness :
    ([str "06001", str "06013"] : List Str) ≠ [] ∧
    ([str "06001", str "06013"] : List Str) ≠ [str "All"] ∧
    isSubstr nullTok (str "WHERE c IN (") = false ∧
    applyCountySubst (some [str "06001", str "06013"])
        (str "WHERE c IN (" ++ (nullTok ++ str ")")) =
      str "WHERE c IN (" ++ (joinedCounties [str "06001", str "06013"] ++
        pyReplaceNull (joinedCounties [str "06001", str "06013"]) (str ")")) := by
  refine ⟨by decide, by decide, by decide, ?_⟩
  exact (run_report_county_substitution (str "x") (str "WHERE c IN (") (str ")")
    [str "06001", str "06013"] (by decide) (by decide) (by decide)).2.2.2

theorem mem_pyDedupAux [DecidableEq α] (x : α) :
    ∀ (l seen : List α), x ∈ pyDedupAux seen l ↔ (x ∈ l ∧ x ∉ seen) := by
  intro l
  induction l with
  | nil => intro seen; simp [pyDedupAux]
  | cons a l ih =>
    intro seen
    by_cases ha : a ∈ seen
    · rw [pyDedupAux, if_pos ha, ih]
      constructor
      · rintro ⟨h1, h2⟩
        exact ⟨List.mem_cons_of_mem _ h1, h2⟩
      · rintro ⟨h1, h2⟩
        rcases List.mem_cons.mp h1 with rfl | h1c
        · exact absurd ha h2
        · exact ⟨h1c, h2⟩
    · rw [pyDedupAux, if_neg ha]
      constructor
      · intro hmem
        rcases List.mem_cons.mp hmem with rfl | hmem2
        · exact ⟨List.mem_cons_self _ _, ha⟩
        · obtain ⟨h1, h2⟩ := (ih (a :: seen)).mp hmem2
          exact ⟨List.mem_cons_of_mem _ h1, fun hc => h2 (List.mem_cons_of_mem _ hc)⟩
      · rintro ⟨h1, h2⟩
        by_cases hxa : x = a
        · subst hxa
          exact List.mem_cons_self _ _
        · rcases List.mem_cons.mp h1 with rfl | h1c
          · exact absurd rfl hxa
          · refine List.mem_cons_of_mem _ ((ih (a :: seen)).mpr ⟨h1c, ?_⟩)
            intro hc
            rcases List.mem_cons.mp hc with rfl | hc2
            · exact hxa rfl
            · exact h2 hc2

theorem mem_countyNormList (x : Str) (cs : List Str) :
    x ∈ countyNormList cs ↔ x ∈ cs.flatMap countyVariants := by
  simp [countyNormList, pyDedup, mem_pyDedupAux]

theorem isPrefixOf_append_self : ∀ (p r : Str), p.isPrefixOf (p ++ r) = true := by
  intro p r
  induction p with
  | nil => cases r with | nil => rfl | cons a as => rfl
  | cons c p ih => simp [List.isPrefixOf, ih]

theorem isSuffixOf_append_self (a b : Str) : b.isSuffixOf (a ++ b) = true := by
  rw [List.isSuffixOf, List.reverse_append]
  exact isPrefixOf_append_self b.reverse a.reverse

theorem countyVariants_no_suffix (c : Str)
    (h : countySuffix.isSuffixOf (pyLower (pyStrip c)) = false) :
    countyVariants c = [pyLower (pyStrip c), pyLower (pyStrip c) ++ countySuffix] := by
  unfold countyVariants
  rw [if_neg (by simp [h])]

theorem suffixed_take (v : Str) :
    (v ++ countySuffix).take ((v ++ countySuffix).length - 7) = v := by
  have h7 : countySuffix.length = 7 := rfl
  rw [List.length_append, h7, Nat.add_sub_cancel]
  exact List.take_left v countySuffix

/-- C5: for every requested county string the normalized set contains both
    the trimmed lower-cased bare form and its `" county"`-suffixed form
    (stated for inputs whose normalized form does not itself carry the
    suffix — for suffixed inputs the two forms are exactly the two set
    elements by the equality below); consequently, for a well-formed name
    `s` (trimmed, suffix-free, with concatenation commuting with the
    normalization as the decidable side conditions state), the sets built
    from `s` and from `s ++ " County"` are equal, so filtering matches
    stored values with or without the suffix. -/
theorem export_county_normalization
    (cs : List Str) (c : Str) (s : Str)
    (hmem : c ∈ cs)
    (hcsfx : countySuffix.isSuffixOf (pyLower (pyStrip c)) = false)
    (h1 : pyStrip (pyLower s) = pyLower s)
    (h2 : countySuffix.isSuffixOf (pyLower s) = false)
    (h3 : pyLower (pyStrip (s ++ str " County")) = pyLower s ++ countySuffix)
    (h4 : pyStrip s = s) :
    pyLower (pyStrip c) ∈ countyNormList cs ∧
    pyLower (pyStrip c) ++ countySuffix ∈ countyNormList cs ∧
    (∀ x, x ∈ countyNormList [s] ↔ x ∈ countyNormList [s ++ str " County"]) := by
  have hvc := countyVariants_no_suffix c hcsfx
  refine ⟨?_, ?_, ?_⟩
  · rw [mem_countyNormList]
    refine List.mem_flatMap.mpr ⟨c, hmem, ?_⟩
    rw [hvc]
    exact List.mem_cons_self _ _
  · rw [mem_countyNormList]
    refine List.mem_flatMap.mpr ⟨c, hmem, ?_⟩
    rw [hvc]
    exact List.mem_cons_of_mem _ (List.mem_cons_self _ _)
  · intro x
    have hv1 : countyVariants s = [pyLower s, pyLower s ++ countySuffix] := by
      have hx := countyVariants_no_suffix s (by rw [h4]; exact h2)
      rw [h4] at hx
      exact hx
    have hv2 : countyVariants (s ++ str " County") =
        [pyLower s ++ countySuffix, pyLower s] := by
      show (if countySuffix.isSuffixOf (pyLower (pyStrip (s ++ str " County"))) = true then
          [pyLower (pyStrip (s ++ str " County")),
           pyStrip ((pyLower (pyStrip (s ++ str " County"))).take
             ((pyLower (pyStrip (s ++ str " County"))).length - 7))]
        else [pyLower (pyStrip (s ++ str " County")),
              pyLower (pyStrip (s ++ str " County")) ++ countySuffix]) = _
      rw [h3]
      rw [if_pos (isSuffixOf_append_self (pyLower s) countySuffix)]
      rw [suffixed_take, h1]
    have md : ∀ (l : List Str), x ∈ pyDedup l ↔ x ∈ l := by
      intro l
      simp [pyDedup, mem_pyDedupAux]
    have e1 : countyNormList [s] = pyDedup (countyVariants s) := by
      simp [countyNormList]
    have e2 : countyNormList [s ++ str " County"] =
        pyDedup (countyVariants (s ++ str " County")) := by
      simp [countyNormList]
    rw [e1, e2, md, md, hv1, hv2]
    simp only [List.mem_cons, List.not_mem_nil, or_false]
    tauto

/-- C5 witness: the claim's `Orange` / `Orange County` example. -/
theorem export_county_normalization_witness :
    (str "Orange") ∈ [str "Orange"] ∧
    countySuffix.isSuffixOf (pyLower (pyStrip (str "Orange"))) = false ∧
    pyStrip (pyLower (str "orange")) = pyLower (str "orange") ∧
    countySuffix.isSuffixOf (pyLower (str "orange")) = false ∧
    pyLower (pyStrip (str "orange" ++ str " County")) =
      pyLower (str "orange") ++ countySuffix ∧
    pyStrip (str "orange") = str "orange" ∧
    pyLower (pyStrip (str "Orange")) ∈ countyNormList [str "Orange"] ∧
    pyLower (pyStrip (str "Orange")) ++ countySuffix ∈ countyNormList [str "Orange"] ∧
    (str "orange county" ∈ countyNormList [str "orange"] ↔
      str "orange county" ∈ countyNormList [str "orange" ++ str " County"]) := by
  have h := export_county_normalization [str "Orange"] (str "Orange") (str "orange")
    (by decide) (by decide) (by decide) (by decide) (by decide) (by decide)
  exact ⟨by decide, by decide, by decide, by decide, by decide, by decide,
    h.1, h.2.1, h.2.2 (str "orange county")⟩
